import Mathlib

/-!
# Verification of the LKH-Vision-Solver geospatial TSP pipeline

Shallow embedding of the pipeline implemented in `LKH_Vision_Solver.py`,
`python_scripts/tsp_converter.py` and `python_scripts/visualize_tour.py`.

Modelling conventions:
* Python `int` becomes `ℤ`, Python `float` values are idealised as exact
  rationals `ℚ` (the claims under study are about the symbolic arithmetic
  performed, not about float64 rounding noise).
* The transcendental kernel of the haversine formula
  (`radians` / `sin` / `cos` / `sqrt` / `atan2`) is not computable; functions
  that consume its value are parameterised over it (`d`, `ca` below), exactly
  as the surrounding integer/rational arithmetic consumes it in the source.
* Python strings are Lean `String`s, but every operation used by the code
  (`strip`, `lower`, `startswith`, `int(...)`, `split('=')`) is re-implemented
  structurally over `List Char` so that all definitions evaluate by kernel
  reduction.
* A Python function that can raise is modelled with an `Option`/`Except`
  result; a function whose body contains no raising path is total.
-/

namespace LKHVision

/-! ## Python string primitives -/

/-- ASCII lower-casing of one character, as `str.lower` acts on the
ASCII column headers appearing in the data sets. -/
def lowerChar (c : Char) : Char :=
  if 65 ≤ c.toNat ∧ c.toNat ≤ 90 then Char.ofNat (c.toNat + 32) else c

/-- `s.lower()` on ASCII strings. -/
def pyLower (s : String) : String :=
  String.mk (s.toList.map lowerChar)

/-- Whitespace as recognised by `str.strip()` (the characters that occur in
the text files at hand). -/
def isSpaceChar (c : Char) : Bool :=
  c = ' ' || c = '\t' || c = '\n' || c = '\r' || c = '\x0b' || c = '\x0c'

/-- `s.strip()`: remove leading and trailing whitespace. -/
def pyStrip (s : String) : String :=
  String.mk (((s.toList.dropWhile isSpaceChar).reverse.dropWhile isSpaceChar).reverse)

/-- Decimal digit value of a character, if it is a digit. -/
def digitVal (c : Char) : Option ℕ :=
  if 48 ≤ c.toNat ∧ c.toNat ≤ 57 then some (c.toNat - 48) else none

/-- Accumulate a non-empty run of decimal digits; any non-digit makes the
whole parse fail. -/
def digitsToNat : List Char → Option ℕ → Option ℕ
  | [], acc => acc
  | c :: cs, acc =>
    match digitVal c, acc with
    | some d, some n => digitsToNat cs (some (n * 10 + d))
    | some d, none => digitsToNat cs (some d)
    | none, _ => none

/-- Python `int(s)` on an already-stripped string: an optional sign followed
by at least one decimal digit; anything else raises `ValueError`, modelled as
`none`.  (Python additionally allows underscores between digits and non-ASCII
digits; neither occurs in solver tour files.) -/
def parseIntPy (s : String) : Option ℤ :=
  match s.toList with
  | [] => none
  | '+' :: rest => (digitsToNat rest none).map (fun n => (n : ℤ))
  | '-' :: rest => (digitsToNat rest none).map (fun n => -(n : ℤ))
  | l => (digitsToNat l none).map (fun n => (n : ℤ))

/-- `a.startswith(b)` via the underlying character lists. -/
def prefixOfList : List Char → List Char → Bool
  | [], _ => true
  | _ :: _, [] => false
  | a :: as, b :: bs => a = b && prefixOfList as bs

/-- `line.split('=')[1]` for a line known to contain at least one `'='`:
the characters strictly between the first `'='` and the following `'='`
(or the end of the string). -/
def splitEqSecond (s : String) : String :=
  String.mk ((((s.toList.dropWhile (fun c => c ≠ '=')).drop 1).takeWhile (fun c => c ≠ '=')))

/-! ## Rounding (tsp_converter.py:142, `int(round(dist * self.scale))`) -/

/-- Python's built-in `round` on an exact value: round to the nearest
integer, ties to the nearest even integer (banker's rounding), which is the
documented behaviour of `round` on Python floats.  `int(...)` of the result
is the identity since one-argument `round` already returns `int`. -/
def pythonRound (q : ℚ) : ℤ :=
  let f : ℤ := Int.floor q
  if q - f < 1/2 then f
  else if 1/2 < q - f then f + 1
  else if f % 2 = 0 then f else f + 1

/-- The rounding rule asserted by the specification for the distance matrix:
round half away from zero.  Kept side by side with `pythonRound` to compare
the two rules. -/
def roundHalfAwayFromZero (q : ℚ) : ℤ :=
  if 0 ≤ q then Int.floor (q + 1/2) else -(Int.floor (-q + 1/2))

/-! ## Distance matrix engine
(`ExcelToTSPConverter.compute_distance_matrix`, tsp_converter.py:117-153)

The method has no validation whatsoever: it allocates an `n × n` zero matrix
and fills the strict upper triangle (mirrored) with
`int(round(haversine * scale))`.  The float64 haversine evaluated on row
coordinates is abstracted as `d : ℕ → ℕ → ℚ` (value of
`haversine_distance(lats[i], lons[i], lats[j], lons[j])`). -/

/-- Index pairs `(i, j)`, `i < j`, in the traversal order of the nested loops
`for i in range(n): for j in range(i + 1, n):` (tsp_converter.py:139-140). -/
def upperPairs (n : ℕ) : List (ℕ × ℕ) :=
  (List.range n).flatMap (fun i => (List.range' (i + 1) (n - (i + 1))).map (fun j => (i, j)))

/-- One assignment `matrix[i, j] = v`. -/
def writeEntry (m : ℕ → ℕ → ℤ) (i j : ℕ) (v : ℤ) : ℕ → ℕ → ℤ :=
  fun a b => if a = i ∧ b = j then v else m a b

/-- Loop body of tsp_converter.py:141-144: compute the scaled distance once
and mirror it into both `[i][j]` and `[j][i]`. -/
def matStep (d : ℕ → ℕ → ℚ) (scale : ℤ) (m : ℕ → ℕ → ℤ) (p : ℕ × ℕ) : ℕ → ℕ → ℤ :=
  writeEntry (writeEntry m p.1 p.2 (pythonRound (d p.1 p.2 * (scale : ℚ))))
    p.2 p.1 (pythonRound (d p.1 p.2 * (scale : ℚ)))

/-- `compute_distance_matrix`: start from `np.zeros((n, n))` and run the
nested loops.  The matrix is represented as a total function on indices;
cells outside `n × n` are never written and stay `0`. -/
def compute_distance_matrix (n : ℕ) (d : ℕ → ℕ → ℚ) (scale : ℤ) : ℕ → ℕ → ℤ :=
  (upperPairs n).foldl (matStep d scale) (fun _ _ => 0)

/-! ## Tour parser
(`TourToExcelConverter._parse_tour`, tsp_converter.py:352-377, and
`parse_tour_file`, visualize_tour.py:36-69)

Neither parser contains any raising statement: the only `try` swallows the
`ValueError` of `int(line)` and `continue`s.  Both are therefore total. -/

/-- A line that terminates the tour section once at least one node id has
been collected (tsp_converter.py:365: `line in ['-1', 'EOF', '']`). -/
def terminatorLine (t : String) : Bool :=
  t = "-1" || t = "EOF" || t = ""

/-- The reading loop of `_parse_tour`, with `inSec` the `in_tour_section`
flag and `acc` the `tour_order` accumulator. -/
def parseTourAux : Bool → List ℤ → List String → List ℤ
  | _, acc, [] => acc
  | inSec, acc, l :: ls =>
    let t := pyStrip l
    if t = "TOUR_SECTION" then parseTourAux true acc ls
    else if terminatorLine t then
      (if inSec && !acc.isEmpty then acc else parseTourAux inSec acc ls)
    else if inSec then
      (match parseIntPy t with
       | some k => parseTourAux inSec (acc ++ [k]) ls
       | none => parseTourAux inSec acc ls)
    else parseTourAux inSec acc ls

/-- `TourToExcelConverter._parse_tour` on the file's lines. -/
def tour_order (lines : List String) : List ℤ :=
  parseTourAux false [] lines

/-- Running `_parse_tour` as a Python call: the method body has no raising
path (the `int` failure is swallowed by `except ValueError: continue`), so a
result is always produced; an uncaught exception would be `none`. -/
def tour_order_run (lines : List String) : Option (List ℤ) :=
  some (tour_order lines)

/-- The claim's description of the parsed order: the integer-parsable lines
after the `TOUR_SECTION` line, a terminator (`-1`, `EOF`, or empty) ending
the collection only once at least one node id has been collected (`seen`),
non-integer lines ignored.  Stated over already-stripped lines. -/
def collectClaim : Bool → List String → List ℤ
  | _, [] => []
  | seen, t :: ls =>
    if terminatorLine t then (if seen then [] else collectClaim seen ls)
    else
      match parseIntPy t with
      | some k => k :: collectClaim true ls
      | none => collectClaim seen ls

/-- The claim's characterisation of the whole parse: strip every line, drop
everything up to and including the first line equal to `TOUR_SECTION`, then
collect as described by `collectClaim`. -/
def claimOrder (lines : List String) : List ℤ :=
  collectClaim false (((lines.map pyStrip).dropWhile (fun t => t ≠ "TOUR_SECTION")).drop 1)

/-- Reading loop of `parse_tour_file` (visualize_tour.py:42-67): same section
machinery as `_parse_tour`, plus capture of `COMMENT : Length = <int>` lines
(each successful capture overwrites the previous; a failed `int` is swallowed
by the bare `except: pass`). -/
def parseTourFileAux : Bool → List ℤ → Option ℤ → List String → List ℤ × Option ℤ
  | _, acc, len, [] => (acc, len)
  | inSec, acc, len, l :: ls =>
    let t := pyStrip l
    let len2 :=
      if prefixOfList "COMMENT : Length =".toList t.toList then
        (match parseIntPy (pyStrip (splitEqSecond t)) with
         | some k => some k
         | none => len)
      else len
    if t = "TOUR_SECTION" then parseTourFileAux true acc len2 ls
    else if terminatorLine t then
      (if inSec && !acc.isEmpty then (acc, len2) else parseTourFileAux inSec acc len2 ls)
    else if inSec then
      (match parseIntPy t with
       | some k => parseTourFileAux inSec (acc ++ [k]) len2 ls
       | none => parseTourFileAux inSec acc len2 ls)
    else parseTourFileAux inSec acc len2 ls

/-- `parse_tour_file` (visualize_tour.py:36-69): returns
`(tour_order, tour_length)`. -/
def parse_tour_file (lines : List String) : List ℤ × Option ℤ :=
  parseTourFileAux false [] none lines

/-! ## Result reconciler
(`TourToExcelConverter.generate_output`, tsp_converter.py:379-425)

The visiting-order column starts at `0` for every row
(`result_df[order_col] = 0`); the mapping loop assigns
`result_df.loc[idx, order_col] = visit_position` only under the guard
`0 <= idx < n`, silently skipping out-of-range node ids.  Nothing raises. -/

/-- One iteration of the mapping loop (tsp_converter.py:396-400): `pe` is the
`(visit_position, node_id)` pair delivered by `enumerate(..., start=1)`. -/
def assignStep (n : ℕ) (vo : ℕ → ℕ) (pe : ℕ × ℤ) : ℕ → ℕ :=
  if 0 ≤ pe.2 - 1 ∧ pe.2 - 1 < (n : ℤ) then
    (fun r => if (r : ℤ) = pe.2 - 1 then pe.1 else vo r)
  else vo

/-- The `visiting_order` column produced by `generate_output` for `n` data
rows, as a function from 0-based row index to assigned position. -/
def visiting_order (n : ℕ) (order : List ℤ) : ℕ → ℕ :=
  (List.enumFrom 1 order).foldl (assignStep n) (fun _ => 0)

/-- Running `generate_output`'s mapping stage as a Python call: the loop body
contains no raising path, so output is always produced. -/
def generate_output_run (n : ℕ) (order : List ℤ) : Option (ℕ → ℕ) :=
  some (visiting_order n order)

/-- The 1-based position of the last entry of `L` carrying node id `i + 1`,
or `dflt` when there is none: the value row `i` ends up with, since later
assignments to the same row overwrite earlier ones. -/
def lastAssignD (L : List (ℕ × ℤ)) (i : ℕ) (dflt : ℕ) : ℕ :=
  L.foldl (fun acc pe => if pe.2 = (i : ℤ) + 1 then pe.1 else acc) dflt

/-! ## Parameter files
(`ExcelToTSPConverter.generate_par_file`, tsp_converter.py:241-277, and
`LKHVisionSolver._create_par_file`, LKH_Vision_Solver.py:805-817)

Each `f.write(f"KEY = {value}\n")` is modelled as the `(key, value)` pair it
renders; `renderParFile` recovers the literal lines. -/

/-- `generate_par_file`: `PATCHING_C`/`PATCHING_A` are hard-coded to `3`/`2`
and `RECOMBINATION` to `CLARIST`; `POPULATION_SIZE`/`RECOMBINATION` are
emitted only when `population_size > 1`. -/
def generate_par_file (tsp_path : String) (runs move_type population_size max_trials : ℤ)
    (tour_file : String) : List (String × String) :=
  [("PROBLEM_FILE", tsp_path),
   ("MOVE_TYPE", toString move_type),
   ("PATCHING_C", "3"),
   ("PATCHING_A", "2"),
   ("RUNS", toString runs),
   ("MAX_TRIALS", toString max_trials)]
  ++ (if 1 < population_size then
        [("POPULATION_SIZE", toString population_size), ("RECOMBINATION", "CLARIST")]
      else [])
  ++ [("TOUR_FILE", tour_file)]

/-- `_create_par_file`: same layout with every value taken from the user
parameters. -/
def create_par_file (tsp_path : String)
    (move_type patching_c patching_a runs max_trials population_size : ℤ)
    (recombination : String) (tour_file : String) : List (String × String) :=
  [("PROBLEM_FILE", tsp_path),
   ("MOVE_TYPE", toString move_type),
   ("PATCHING_C", toString patching_c),
   ("PATCHING_A", toString patching_a),
   ("RUNS", toString runs),
   ("MAX_TRIALS", toString max_trials)]
  ++ (if 1 < population_size then
        [("POPULATION_SIZE", toString population_size), ("RECOMBINATION", recombination)]
      else [])
  ++ [("TOUR_FILE", tour_file)]

/-- The literal text line written for one recognized option. -/
def renderParLine (kv : String × String) : String :=
  kv.1 ++ " = " ++ kv.2

/-- The lines of the parameter file, in the order they are written. -/
def renderParFile (kvs : List (String × String)) : List String :=
  kvs.map renderParLine

/-! ## Reconciled total distance
(`LKHVisionSolver._calculate_distance`, LKH_Vision_Solver.py:862-881)

`total += haversine_distance(...)` over `i in range(len(tour_order))` with
`idx2 = tour_order[(i + 1) % len(tour_order)] - 1`: the float64 haversine
between original records `idx1` and `idx2` is abstracted as `d idx1 idx2`. -/

/-- `_calculate_distance`: fold of the indexed loop; `total_distance` is the
returned sum. -/
def calculate_distance (d : ℤ → ℤ → ℚ) (order : List ℤ) : ℚ :=
  (List.range order.length).foldl
    (fun total i =>
      total + d (order.getD i 0 - 1) (order.getD ((i + 1) % order.length) 0 - 1))
    0

/-- The specification's description of the same quantity: the sum over
consecutive points in tour order plus the closing edge from the last point
back to the first. -/
def closed_loop_total (d : ℤ → ℤ → ℚ) (order : List ℤ) : ℚ :=
  ((order.zip order.tail).map (fun pr => d (pr.1 - 1) (pr.2 - 1))).sum
    + d (order.getLast?.getD 0 - 1) (order.headD 0 - 1)

/-- A concrete symmetric stand-in for the haversine kernel, used to
instantiate universally quantified statements. -/
def exampleDist (a b : ℤ) : ℚ :=
  (((a - b) * (a - b) : ℤ) : ℚ)

/-! ## Solver process orchestration
(`LKHVisionSolver._run_lkh`, LKH_Vision_Solver.py:819-860, and
`LKHVisionSolver._run_optimization`, LKH_Vision_Solver.py:712-803)

`_run_lkh` spawns the executable (`subprocess.Popen` raises
`FileNotFoundError` when it is missing), streams its output for progress
display, then calls `self.process.wait()` and **discards** the returned exit
status: no exception is raised for a non-zero exit, and no `SolverError`
class exists anywhere in the repository.  `_run_optimization` then proceeds
to Step 4 and constructs `TourToExcelConverter` (the result reconciler)
whenever `_run_lkh` returned normally and `is_running` is still set. -/

/-- The exceptions relevant to the solver stage. -/
inductive PyExc
  | fileNotFound
  deriving DecidableEq

/-- Outcome data of one external solver invocation. -/
structure SolverRun where
  exeExists : Bool
  exitCode : ℤ

/-- What `_run_optimization` observably did after the solver stage. -/
structure RunTrace where
  reconcilerInvoked : Bool
  raisedExc : Option PyExc
  deriving DecidableEq

/-- `_run_lkh`: fails only when spawning fails; the exit status read by
`wait()` on line 860 is never examined. -/
def run_lkh (r : SolverRun) : Except PyExc Unit :=
  if r.exeExists then Except.ok () else Except.error PyExc.fileNotFound

/-- The control flow of `_run_optimization` around the solver stage: an
exception from `_run_lkh` propagates to the `except` handler and no further
stage runs; otherwise, unless the user cleared `is_running`, Step 4 invokes
the result reconciler (`TourToExcelConverter` + `generate_output`). -/
def run_optimization (r : SolverRun) (is_running : Bool) : RunTrace :=
  match run_lkh r with
  | Except.error e => { reconcilerInvoked := false, raisedExc := some e }
  | Except.ok _ =>
    if is_running then { reconcilerInvoked := true, raisedExc := none }
    else { reconcilerInvoked := false, raisedExc := none }

/-! ## Column detection (`detect_columns`, tsp_converter.py:431-468)

`columns_lower = {col.lower(): col for col in df.columns}` maps each
lower-cased header to the original header (a later duplicate overwrites an
earlier one); each pattern is then tested for **exact** key membership
(`if pattern in columns_lower`), never by substring. -/

def lat_patterns : List String :=
  ["latitude", "lat", "y", "coord_y", "lat_deg"]

def lon_patterns : List String :=
  ["longitude", "lon", "long", "x", "coord_x", "lon_deg", "lng"]

def id_patterns : List String :=
  ["id", "commune", "name", "city", "node", "point", "index"]

/-- `columns_lower[pattern]` when `pattern in columns_lower`: the last column
whose lower-casing equals the pattern. -/
def columnsLowerGet (cols : List String) (key : String) : Option String :=
  (cols.filter (fun c => pyLower c = key)).getLast?

/-- First pattern of the list that is a key of `columns_lower`, mapped to its
original column name. -/
def findPattern (cols : List String) (pats : List String) : Option String :=
  pats.findSome? (fun p => columnsLowerGet cols p)

/-- `detect_columns`: returns `(id_col, lat_col, lon_col)`; the identifier
falls back to the first column when no id pattern matches. -/
def detect_columns (cols : List String) : Option String × Option String × Option String :=
  (match findPattern cols id_patterns with
   | some c => some c
   | none => cols.head?,
   findPattern cols lat_patterns,
   findPattern cols lon_patterns)

/-! ## The two haversine implementations (claim C10)

`tsp_converter.haversine_distance` (tsp_converter.py:29-51) and
`visualize_tour.haversine_distance` (visualize_tour.py:23-33) compute the
central angle `c = 2 * atan2(sqrt(a), sqrt(1 - a))` by the same token
sequence and then return `EARTH_RADIUS_KM * c` — with
`EARTH_RADIUS_KM = 6371.008` in the first module and `6371.0` in the second.
The shared transcendental core is abstracted as
`ca : ℚ → ℚ → ℚ → ℚ → ℚ` (central angle of the two coordinate pairs). -/

/-- `haversine_distance` of tsp_converter.py: radius `6371.008`. -/
def haversine_distance_conv (ca : ℚ → ℚ → ℚ → ℚ → ℚ) (lat1 lon1 lat2 lon2 : ℚ) : ℚ :=
  (6371008 / 1000) * ca lat1 lon1 lat2 lon2

/-- `haversine_distance` of visualize_tour.py: radius `6371.0`. -/
def haversine_distance_viz (ca : ℚ → ℚ → ℚ → ℚ → ℚ) (lat1 lon1 lat2 lon2 : ℚ) : ℚ :=
  6371 * ca lat1 lon1 lat2 lon2

/-- The closed loop of `create_tour_map` (visualize_tour.py:116-118):
`tour_coords.append(tour_coords[0])`, then consecutive pairs. -/
def closedEdges (pts : List (ℚ × ℚ)) : List ((ℚ × ℚ) × (ℚ × ℚ)) :=
  match pts with
  | [] => []
  | p :: _ => (pts ++ [p]).zip ((pts ++ [p]).tail)

/-- Total distance computed for the generated map
(visualize_tour.py:121-125): visualize_tour's haversine summed over the
closed loop. -/
def create_tour_map_total (ca : ℚ → ℚ → ℚ → ℚ → ℚ) (pts : List (ℚ × ℚ)) : ℚ :=
  ((closedEdges pts).map (fun e => haversine_distance_viz ca e.1.1 e.1.2 e.2.1 e.2.2)).sum

/-- The reconciled `totalDistanceKm` reported to the user
(`_calculate_distance`), over the same closed loop of edges: tsp_converter's
haversine summed edge by edge (the equivalence of the `%`-indexed loop with
the closed loop is proved for `calculate_distance` below). -/
def reported_total (ca : ℚ → ℚ → ℚ → ℚ → ℚ) (pts : List (ℚ × ℚ)) : ℚ :=
  ((closedEdges pts).map (fun e => haversine_distance_conv ca e.1.1 e.1.2 e.2.1 e.2.2)).sum

/-- A concrete central-angle stand-in for instantiating universally
quantified statements. -/
def unitAngle : ℚ → ℚ → ℚ → ℚ → ℚ :=
  fun _ _ _ _ => 1

/-! # Helper lemmas -/

/-! ## Distance matrix -/

theorem mem_upperPairs {n i j : ℕ} : (i, j) ∈ upperPairs n ↔ i < j ∧ j < n := by
  simp only [upperPairs, List.mem_flatMap, List.mem_map, List.mem_range, List.mem_range'_1,
    Prod.mk.injEq]
  constructor
  · rintro ⟨a, ha, b, ⟨hb1, hb2⟩, rfl, rfl⟩
    omega
  · rintro ⟨hij, hjn⟩
    exact ⟨i, by omega, j, ⟨by omega, by omega⟩, rfl, rfl⟩

theorem upperPairs_lt {n : ℕ} : ∀ p ∈ upperPairs n, p.1 < p.2 := by
  rintro ⟨i, j⟩ hp
  exact (mem_upperPairs.1 hp).1

theorem foldl_matStep_diag (d : ℕ → ℕ → ℚ) (scale : ℤ) :
    ∀ L : List (ℕ × ℕ), (∀ p ∈ L, p.1 < p.2) →
      ∀ (m : ℕ → ℕ → ℤ) (a : ℕ), L.foldl (matStep d scale) m a a = m a a := by
  intro L
  induction L with
  | nil => intro _ m a; rfl
  | cons p T ih =>
    obtain ⟨p1, p2⟩ := p
    intro hL m a
    have hp : p1 < p2 := hL (p1, p2) (List.mem_cons_self _ T)
    have hT : ∀ q ∈ T, q.1 < q.2 := fun q hq => hL q (List.mem_cons_of_mem _ hq)
    have hstep : matStep d scale m (p1, p2) a a = m a a := by
      simp only [matStep, writeEntry]
      have h1 : ¬(a = p2 ∧ a = p1) := by rintro ⟨rfl, rfl⟩; omega
      have h2 : ¬(a = p1 ∧ a = p2) := by rintro ⟨rfl, rfl⟩; omega
      rw [if_neg h1, if_neg h2]
    calc ((p1, p2) :: T).foldl (matStep d scale) m a a
        = T.foldl (matStep d scale) (matStep d scale m (p1, p2)) a a := rfl
      _ = matStep d scale m (p1, p2) a a := ih hT _ a
      _ = m a a := hstep

theorem foldl_matStep_spec (d : ℕ → ℕ → ℚ) (scale : ℤ) :
    ∀ L : List (ℕ × ℕ), (∀ p ∈ L, p.1 < p.2) →
      ∀ (m : ℕ → ℕ → ℤ) (a b : ℕ), a < b →
        L.foldl (matStep d scale) m a b
            = (if (a, b) ∈ L then pythonRound (d a b * (scale : ℚ)) else m a b)
        ∧ L.foldl (matStep d scale) m b a
            = (if (a, b) ∈ L then pythonRound (d a b * (scale : ℚ)) else m b a) := by
  intro L
  induction L with
  | nil => intro _ m a b hab; simp
  | cons p T ih =>
    obtain ⟨p1, p2⟩ := p
    intro hL m a b hab
    have hp : p1 < p2 := hL (p1, p2) (List.mem_cons_self _ T)
    have hT : ∀ q ∈ T, q.1 < q.2 := fun q hq => hL q (List.mem_cons_of_mem _ hq)
    rcases ih hT (matStep d scale m (p1, p2)) a b hab with ⟨h1, h2⟩
    by_cases hpe : (p1, p2) = ((a, b) : ℕ × ℕ)
    · obtain ⟨rfl, rfl⟩ := Prod.mk.injEq .. ▸ hpe
      have hab1 : matStep d scale m (p1, p2) p1 p2 = pythonRound (d p1 p2 * (scale : ℚ)) := by
        simp [matStep, writeEntry, Nat.ne_of_lt hp]
      have hab2 : matStep d scale m (p1, p2) p2 p1 = pythonRound (d p1 p2 * (scale : ℚ)) := by
        simp [matStep, writeEntry]
      have hmemhd : ((p1, p2) : ℕ × ℕ) ∈ (p1, p2) :: T := List.mem_cons_self _ _
      constructor
      · rw [List.foldl_cons, h1, if_pos hmemhd]
        by_cases hmem : ((p1, p2) : ℕ × ℕ) ∈ T
        · rw [if_pos hmem]
        · rw [if_neg hmem, hab1]
      · rw [List.foldl_cons, h2, if_pos hmemhd]
        by_cases hmem : ((p1, p2) : ℕ × ℕ) ∈ T
        · rw [if_pos hmem]
        · rw [if_neg hmem, hab2]
    · have hab1 : matStep d scale m (p1, p2) a b = m a b := by
        simp only [matStep, writeEntry]
        have hne1 : ¬(a = p2 ∧ b = p1) := by rintro ⟨rfl, rfl⟩; omega
        have hne2 : ¬(a = p1 ∧ b = p2) := by
          rintro ⟨rfl, rfl⟩; exact hpe rfl
        rw [if_neg hne1, if_neg hne2]
      have hab2 : matStep d scale m (p1, p2) b a = m b a := by
        simp only [matStep, writeEntry]
        have hne1 : ¬(b = p2 ∧ a = p1) := by
          rintro ⟨rfl, rfl⟩; exact hpe rfl
        have hne2 : ¬(b = p1 ∧ a = p2) := by rintro ⟨rfl, rfl⟩; omega
        rw [if_neg hne1, if_neg hne2]
      have hmem : (((a, b) : ℕ × ℕ) ∈ (p1, p2) :: T) ↔ ((a, b) : ℕ × ℕ) ∈ T := by
        simp only [List.mem_cons]
        constructor
        · rintro (heq | h)
          · exact absurd heq.symm hpe
          · exact h
        · exact fun h => Or.inr h
      constructor
      · rw [List.foldl_cons, h1, hab1, if_congr hmem rfl rfl]
      · rw [List.foldl_cons, h2, hab2, if_congr hmem rfl rfl]

theorem compute_distance_matrix_spec (n : ℕ) (d : ℕ → ℕ → ℚ) (scale : ℤ)
    (i j : ℕ) (hij : i < j) (hj : j < n) :
    compute_distance_matrix n d scale i j = pythonRound (d i j * (scale : ℚ)) ∧
    compute_distance_matrix n d scale j i = pythonRound (d i j * (scale : ℚ)) := by
  have hmem : (i, j) ∈ upperPairs n := mem_upperPairs.2 ⟨hij, hj⟩
  rcases foldl_matStep_spec d scale (upperPairs n) upperPairs_lt (fun _ _ => 0) i j hij
    with ⟨h1, h2⟩
  constructor
  · rw [compute_distance_matrix, h1, if_pos hmem]
  · rw [compute_distance_matrix, h2, if_pos hmem]

theorem compute_distance_matrix_diag (n : ℕ) (d : ℕ → ℕ → ℚ) (scale : ℤ) (a : ℕ) :
    compute_distance_matrix n d scale a a = 0 :=
  foldl_matStep_diag d scale (upperPairs n) upperPairs_lt (fun _ _ => 0) a

/-! ## Tour parser -/

theorem terminatorLine_tour_section : terminatorLine "TOUR_SECTION" = false := rfl

theorem parseIntPy_tour_section : parseIntPy "TOUR_SECTION" = none := rfl

theorem parseTourAux_inSection :
    ∀ (ls : List String) (acc : List ℤ),
      parseTourAux true acc ls = acc ++ collectClaim (!acc.isEmpty) (ls.map pyStrip) := by
  intro ls
  induction ls with
  | nil => intro acc; simp [parseTourAux, collectClaim]
  | cons l ls ih =>
    intro acc
    simp only [parseTourAux, List.map_cons]
    by_cases hts : pyStrip l = "TOUR_SECTION"
    · rw [if_pos hts, hts, collectClaim, terminatorLine_tour_section]
      simp only [Bool.false_eq_true, if_false, parseIntPy_tour_section]
      exact ih acc
    · rw [if_neg hts, collectClaim]
      by_cases hterm : terminatorLine (pyStrip l) = true
      · rw [if_pos hterm, if_pos hterm, Bool.true_and]
        by_cases hacc : acc.isEmpty
        · have hnil : acc = [] := List.isEmpty_iff.1 hacc
          rw [hacc]
          simp only [Bool.not_true, Bool.false_eq_true, if_false]
          rw [ih acc, hnil]
          simp
        · have hacc' : acc.isEmpty = false := Bool.eq_false_iff.2 hacc
          rw [hacc']
          simp
      · have hterm' : terminatorLine (pyStrip l) = false := Bool.eq_false_iff.2 hterm
        rw [hterm']
        simp only [Bool.false_eq_true, if_false, if_true]
        cases hint : parseIntPy (pyStrip l) with
        | some k =>
          dsimp only
          rw [ih (acc ++ [k])]
          have hne : (acc ++ [k]).isEmpty = false := by cases acc <;> rfl
          simp [hne, List.append_assoc]
        | none =>
          dsimp only
          exact ih acc

theorem parseTourAux_beforeSection :
    ∀ lines : List String, parseTourAux false [] lines = claimOrder lines := by
  intro lines
  induction lines with
  | nil => rfl
  | cons l ls ih =>
    simp only [parseTourAux, claimOrder, List.map_cons]
    by_cases hts : pyStrip l = "TOUR_SECTION"
    · rw [if_pos hts, hts]
      have hdw :
          ((("TOUR_SECTION" : String) :: ls.map pyStrip).dropWhile
              (fun t => t ≠ "TOUR_SECTION")).drop 1 = ls.map pyStrip := by
        simp [List.dropWhile_cons]
      rw [hdw]
      simpa using parseTourAux_inSection ls []
    · rw [if_neg hts]
      have hdrop :
          ((pyStrip l :: ls.map pyStrip).dropWhile (fun t => t ≠ "TOUR_SECTION")).drop 1
            = ((ls.map pyStrip).dropWhile (fun t => t ≠ "TOUR_SECTION")).drop 1 := by
        rw [List.dropWhile_cons]
        simp [hts]
      rw [hdrop]
      by_cases hterm : terminatorLine (pyStrip l) = true
      · rw [if_pos hterm]
        simp only [Bool.false_and, Bool.false_eq_true, if_false]
        exact ih
      · have hterm' : terminatorLine (pyStrip l) = false := Bool.eq_false_iff.2 hterm
        rw [hterm']
        simp only [Bool.false_eq_true, if_false]
        exact ih

theorem tour_order_eq_claimOrder (lines : List String) :
    tour_order lines = claimOrder lines :=
  parseTourAux_beforeSection lines

/-! ## Result reconciler -/

theorem foldl_assignStep_eq (n : ℕ) (i : ℕ) (hi : i < n) :
    ∀ (L : List (ℕ × ℤ)) (vo : ℕ → ℕ),
      (L.foldl (assignStep n) vo) i = lastAssignD L i (vo i) := by
  intro L
  induction L with
  | nil => intro vo; rfl
  | cons pe T ih =>
    intro vo
    rw [List.foldl_cons, ih (assignStep n vo pe)]
    show lastAssignD T i (assignStep n vo pe i) =
      lastAssignD T i (if pe.2 = (i : ℤ) + 1 then pe.1 else vo i)
    congr 1
    by_cases hpe : pe.2 = (i : ℤ) + 1
    · have hg : 0 ≤ pe.2 - 1 ∧ pe.2 - 1 < (n : ℤ) := by omega
      have hcell : ((i : ℤ)) = pe.2 - 1 := by omega
      simp only [assignStep]
      rw [if_pos hg]
      show (if (i : ℤ) = pe.2 - 1 then pe.1 else vo i) = _
      rw [if_pos hcell, if_pos hpe]
    · by_cases hg : 0 ≤ pe.2 - 1 ∧ pe.2 - 1 < (n : ℤ)
      · have hcell : ¬((i : ℤ) = pe.2 - 1) := by omega
        simp only [assignStep]
        rw [if_pos hg]
        show (if (i : ℤ) = pe.2 - 1 then pe.1 else vo i) = _
        rw [if_neg hcell, if_neg hpe]
      · simp only [assignStep]
        rw [if_neg hg, if_neg hpe]

/-! ## Reconciled total distance -/

theorem foldl_add_eq_sum (g : ℕ → ℚ) :
    ∀ (l : List ℕ) (a : ℚ), l.foldl (fun t i => t + g i) a = a + (l.map g).sum := by
  intro l
  induction l with
  | nil => intro a; simp
  | cons x l ih =>
    intro a
    rw [List.foldl_cons, ih, List.map_cons, List.sum_cons, add_assoc]

theorem range_map_consec (f : ℤ → ℤ → ℚ) :
    ∀ o : List ℤ,
      ((List.range (o.length - 1)).map (fun i => f (o.getD i 0) (o.getD (i + 1) 0))).sum
        = ((o.zip o.tail).map (fun pr => f pr.1 pr.2)).sum := by
  intro o
  induction o with
  | nil => simp
  | cons a o ih =>
    cases o with
    | nil => simp
    | cons b o' =>
      have hlen : (a :: b :: o').length - 1 = o'.length + 1 := by simp
      rw [hlen, List.range_succ_eq_map, List.map_cons, List.sum_cons, List.map_map]
      have hcomp :
          ((fun i => f ((a :: b :: o').getD i 0) ((a :: b :: o').getD (i + 1) 0)) ∘ Nat.succ)
            = fun i => f ((b :: o').getD i 0) ((b :: o').getD (i + 1) 0) := rfl
      rw [hcomp]
      have hlen' : (b :: o').length - 1 = o'.length := by simp
      rw [hlen'] at ih
      rw [ih]
      simp

theorem getD_length_sub_one :
    ∀ (l : List ℤ) (a : ℤ),
      (a :: l).getD ((a :: l).length - 1) 0 = ((a :: l).getLast?).getD 0 := by
  intro l
  induction l with
  | nil => intro a; rfl
  | cons b l' ih =>
    intro a
    have h1 : (a :: b :: l').length - 1 = l'.length + 1 := by simp
    rw [h1]
    have h2 : (a :: b :: l').getD (l'.length + 1) 0 = (b :: l').getD ((b :: l').length - 1) 0 := by
      simp
    rw [h2, ih b, List.getLast?_cons_cons]

theorem calculate_distance_closed_loop (d : ℤ → ℤ → ℚ) (o : List ℤ) (ho : o ≠ []) :
    calculate_distance d o = closed_loop_total d o := by
  rcases o with - | ⟨a, o'⟩
  · exact absurd rfl ho
  rw [calculate_distance, foldl_add_eq_sum, zero_add]
  have hn : (a :: o').length = o'.length + 1 := by simp
  rw [hn, List.range_succ, List.map_append, List.sum_append]
  have hcong :
      (List.range o'.length).map
          (fun i => d ((a :: o').getD i 0 - 1)
            ((a :: o').getD ((i + 1) % (o'.length + 1)) 0 - 1))
        = (List.range o'.length).map
            (fun i => d ((a :: o').getD i 0 - 1) ((a :: o').getD (i + 1) 0 - 1)) := by
    apply List.map_congr_left
    intro i hi
    rw [List.mem_range] at hi
    rw [Nat.mod_eq_of_lt (by omega)]
  rw [hcong]
  have hconsec := range_map_consec (fun x y => d (x - 1) (y - 1)) (a :: o')
  have hlen : (a :: o').length - 1 = o'.length := by simp
  rw [hlen] at hconsec
  rw [hconsec]
  have hlast : (o'.length + 1) % (o'.length + 1) = 0 := Nat.mod_self _
  have hgetlast := getD_length_sub_one o' a
  rw [hlen] at hgetlast
  rw [closed_loop_total]
  congr 1
  simp only [List.map_cons, List.map_nil, List.sum_cons, List.sum_nil, add_zero]
  rw [hlast, hgetlast]
  rfl

/-! ## The two haversine totals -/

theorem create_tour_map_total_eq (ca : ℚ → ℚ → ℚ → ℚ → ℚ) (pts : List (ℚ × ℚ)) :
    create_tour_map_total ca pts
      = 6371 * ((closedEdges pts).map (fun e => ca e.1.1 e.1.2 e.2.1 e.2.2)).sum := by
  rw [create_tour_map_total, ← List.sum_map_mul_left]
  rfl

theorem reported_total_eq (ca : ℚ → ℚ → ℚ → ℚ → ℚ) (pts : List (ℚ × ℚ)) :
    reported_total ca pts
      = (6371008 / 1000) * ((closedEdges pts).map (fun e => ca e.1.1 e.1.2 e.2.1 e.2.2)).sum := by
  rw [reported_total, ← List.sum_map_mul_left]
  rfl

/-! # Claim theorems -/

/-- Claim C1, counterexample: the claim asserts
`matrix[i][j] == round(haversine_km * scale)` with round-half-away-from-zero.
The code (tsp_converter.py:142) uses Python's built-in `round`, which rounds
half to even: at a pair of points whose haversine distance is exactly
`0.5 km` (realised e.g. by `lat1 = lat2 = 0`, `lon1 = 0`,
`lon2 = 90 / (6371.008 * pi)` degrees, for which the formula gives exactly
`0.5` in exact arithmetic) and `scale = 1`, the matrix holds
`round(0.5) = 0`, while round-half-away-from-zero gives `1`. -/
theorem claim1_counterexample :
    compute_distance_matrix 2 (fun _ _ => (1 / 2 : ℚ)) 1 0 1 ≠
      roundHalfAwayFromZero ((1 / 2 : ℚ) * ((1 : ℤ) : ℚ)) := by
  have h0 : compute_distance_matrix 2 (fun _ _ => (1 / 2 : ℚ)) 1 0 1
      = pythonRound ((1 / 2 : ℚ) * ((1 : ℤ) : ℚ)) :=
    (compute_distance_matrix_spec 2 (fun _ _ => (1 / 2 : ℚ)) 1 0 1 (by omega) (by omega)).1
  rw [h0]
  norm_num [pythonRound, roundHalfAwayFromZero]

/-- Claim C1 (amended): for every ordered point sequence (abstracted by its
symmetric pairwise haversine kernel `d`), every scale, and every pair of
indices `i ≠ j` inside the matrix, `matrix[i][j]` equals
`round(haversine_km * scale)` where `round` is Python's round-half-to-even
(`pythonRound`) — not round-half-away-from-zero. -/
theorem claim1_matrix_rounding (n : ℕ) (d : ℕ → ℕ → ℚ) (scale : ℤ)
    (hsym : ∀ a b : ℕ, d a b = d b a) (i j : ℕ) (hi : i < n) (hj : j < n) (hij : i ≠ j) :
    compute_distance_matrix n d scale i j = pythonRound (d i j * (scale : ℚ)) := by
  rcases Nat.lt_or_ge i j with h | h
  · exact (compute_distance_matrix_spec n d scale i j h hj).1
  · have h2 : j < i := lt_of_le_of_ne h (Ne.symm hij)
    have hres := (compute_distance_matrix_spec n d scale j i h2 hi).2
    rw [hres, hsym i j]

/-- Witness for `claim1_matrix_rounding` at a concrete input. -/
theorem claim1_matrix_rounding_witness :
    compute_distance_matrix 2 (fun _ _ => (3 / 2 : ℚ)) 1 0 1
      = pythonRound ((3 / 2 : ℚ) * ((1 : ℤ) : ℚ)) :=
  claim1_matrix_rounding 2 (fun _ _ => (3 / 2 : ℚ)) 1 (fun _ _ => rfl) 0 1
    (by omega) (by omega) (by omega)

/-- Claim C2, counterexample: the claim asserts that a non-zero solver exit
status fails the run with `SolverError` and that the Result Reconciler is
never invoked.  In the code, `_run_lkh` discards the exit status returned by
`process.wait()` (LKH_Vision_Solver.py:860), no `SolverError` class exists,
and `_run_optimization` proceeds to Step 4: with exit code `1` the
reconciler is invoked and no exception is raised. -/
theorem claim2_counterexample :
    run_optimization { exeExists := true, exitCode := 1 } true
      = { reconcilerInvoked := true, raisedExc := none } := rfl

/-- Claim C2 (amended): the solver's exit status is never examined: whenever
the executable could be spawned and the user has not cancelled, the pipeline
invokes the Result Reconciler and raises nothing, whatever the exit code. -/
theorem claim2_exit_status_ignored (r : SolverRun) (hexe : r.exeExists = true) :
    run_optimization r true = { reconcilerInvoked := true, raisedExc := none } := by
  simp [run_optimization, run_lkh, hexe]

/-- Witness for `claim2_exit_status_ignored` at a concrete input with
non-zero exit code. -/
theorem claim2_exit_status_ignored_witness :
    run_optimization { exeExists := true, exitCode := 7 } true
      = { reconcilerInvoked := true, raisedExc := none } :=
  claim2_exit_status_ignored { exeExists := true, exitCode := 7 } rfl

/-- Claim C3: the parsed order equals the sequence of integer-parsable lines
after the line `TOUR_SECTION` and before the first terminator (`-1`, `EOF`,
empty) encountered once at least one node id has been collected, terminators
seen earlier and non-integer lines being ignored; on the file body
`TOUR_SECTION\n1\n3\n2\n4\n-1\nEOF\n` the parser yields `[1, 3, 2, 4]` and
no length. -/
theorem claim3_tour_parsing :
    (∀ lines : List String, tour_order lines = claimOrder lines) ∧
    tour_order ["TOUR_SECTION\n", "1\n", "3\n", "2\n", "4\n", "-1\n", "EOF\n"] = [1, 3, 2, 4] ∧
    parse_tour_file ["TOUR_SECTION\n", "1\n", "3\n", "2\n", "4\n", "-1\n", "EOF\n"]
      = ([1, 3, 2, 4], none) :=
  ⟨tour_order_eq_claimOrder, by decide, by decide⟩

/-- Claim C4, counterexample: the claim asserts that a collected order
containing a duplicate makes parsing fail with `ParseError` rather than
return a result.  The parser (tsp_converter.py:352-377) has no raising path
and performs no validation: on a file whose section holds `1, 1` it returns
the duplicated order as a normal result. -/
theorem claim4_counterexample :
    tour_order_run ["TOUR_SECTION\n", "1\n", "1\n", "-1\n", "EOF\n"] = some [1, 1] ∧
    ¬ ([1, 1] : List ℤ).Nodup := by
  exact ⟨by decide, by decide⟩

/-- Claim C4 (amended): tour parsing never fails: a section that is never
terminated yields the ids collected up to end of file, and duplicate or
out-of-range node ids are returned unchanged (validation happens nowhere;
`generate_output` later skips out-of-range ids silently). -/
theorem claim4_no_parse_validation :
    tour_order_run ["TOUR_SECTION\n", "2\n", "3\n"] = some [2, 3] ∧
    tour_order_run ["TOUR_SECTION\n", "5\n", "5\n", "-1\n"] = some [5, 5] ∧
    tour_order_run ["TOUR_SECTION\n", "9\n", "-1\n", "EOF\n"] = some [9] := by
  exact ⟨by decide, by decide, by decide⟩

/-- Claim C5, counterexample: the claim asserts that matrix construction
fails with `ValidationError` whenever `n < 2` and never returns a matrix.
`compute_distance_matrix` contains no validation: for a single point it
returns the 1×1 zero matrix. -/
theorem claim5_counterexample :
    compute_distance_matrix 1 (fun _ _ => (0 : ℚ)) 1000000 = fun _ _ => (0 : ℤ) := rfl

/-- Claim C5 (amended): for `n < 2` the construction performs no validation
and returns the all-zero `n × n` matrix (the nested loops execute no
iteration); no `ValidationError` exists in the code.  (The non-finite
coordinate case is a float64 behaviour: Python's `round` raises a built-in
`ValueError`/`OverflowError` on NaN/inf, still not a `ValidationError`.) -/
theorem claim5_no_small_n_validation (n : ℕ) (hn : n < 2) (d : ℕ → ℕ → ℚ) (scale : ℤ)
    (i j : ℕ) : compute_distance_matrix n d scale i j = 0 := by
  interval_cases n
  · rfl
  · rfl

/-- Witness for `claim5_no_small_n_validation` at a concrete input. -/
theorem claim5_no_small_n_validation_witness :
    compute_distance_matrix 1 (fun _ _ => (7 : ℚ)) 5 0 0 = 0 :=
  claim5_no_small_n_validation 1 (by omega) (fun _ _ => (7 : ℚ)) 5 0 0

/-- Claim C6, counterexample: the claim asserts that an order containing a
node id outside `1..n` makes `generate_output` fail with `ValidationError`
instead of producing output.  The mapping loop (tsp_converter.py:396-400)
guards `0 <= idx < n` and silently skips out-of-range ids: with `n = 2` and
order `[1, 5]` output is produced, row 0 gets position 1 and row 1 keeps the
default 0. -/
theorem claim6_counterexample :
    generate_output_run 2 [1, 5] = some (visiting_order 2 [1, 5]) ∧
    visiting_order 2 [1, 5] 0 = 1 ∧ visiting_order 2 [1, 5] 1 = 0 :=
  ⟨rfl, by decide, by decide⟩

/-- Claim C6 (amended): `generate_output` never fails: row `i` (for
`i < n`) receives the 1-based position of the last occurrence of node id
`i + 1` in the order, and keeps the default `0` when the id never occurs;
out-of-range ids are silently skipped. -/
theorem claim6_silent_skip (n : ℕ) (order : List ℤ) (i : ℕ) (hi : i < n) :
    visiting_order n order i = lastAssignD (List.enumFrom 1 order) i 0 :=
  foldl_assignStep_eq n i hi (List.enumFrom 1 order) (fun _ => 0)

/-- Witness for `claim6_silent_skip` at a concrete input. -/
theorem claim6_silent_skip_witness :
    visiting_order 3 [2, 3, 1] 0 = lastAssignD (List.enumFrom 1 [2, 3, 1]) 0 0 :=
  claim6_silent_skip 3 [2, 3, 1] 0 (by omega)

/-- Claim C7: the parameter file consists of `KEY = VALUE` lines in exactly
the order `PROBLEM_FILE, MOVE_TYPE, PATCHING_C, PATCHING_A, RUNS,
MAX_TRIALS`, then `POPULATION_SIZE` and `RECOMBINATION` if and only if the
configured population size is strictly greater than 1, then `TOUR_FILE`
last — for both `_create_par_file` and `generate_par_file`. -/
theorem claim7_par_file_layout (tsp_path : String)
    (move_type patching_c patching_a runs max_trials population_size : ℤ)
    (recombination tour_file : String) :
    ((create_par_file tsp_path move_type patching_c patching_a runs max_trials
        population_size recombination tour_file).map Prod.fst
      = ["PROBLEM_FILE", "MOVE_TYPE", "PATCHING_C", "PATCHING_A", "RUNS", "MAX_TRIALS"]
        ++ (if 1 < population_size then ["POPULATION_SIZE", "RECOMBINATION"] else [])
        ++ ["TOUR_FILE"]) ∧
    ("POPULATION_SIZE" ∈ (create_par_file tsp_path move_type patching_c patching_a runs
        max_trials population_size recombination tour_file).map Prod.fst
      ↔ 1 < population_size) ∧
    ((create_par_file tsp_path move_type patching_c patching_a runs max_trials
        population_size recombination tour_file).map Prod.fst).getLast? = some "TOUR_FILE" ∧
    ((generate_par_file tsp_path runs move_type population_size max_trials tour_file).map
        Prod.fst
      = ["PROBLEM_FILE", "MOVE_TYPE", "PATCHING_C", "PATCHING_A", "RUNS", "MAX_TRIALS"]
        ++ (if 1 < population_size then ["POPULATION_SIZE", "RECOMBINATION"] else [])
        ++ ["TOUR_FILE"]) := by
  have hkeys : (create_par_file tsp_path move_type patching_c patching_a runs max_trials
      population_size recombination tour_file).map Prod.fst
      = ["PROBLEM_FILE", "MOVE_TYPE", "PATCHING_C", "PATCHING_A", "RUNS", "MAX_TRIALS"]
        ++ (if 1 < population_size then ["POPULATION_SIZE", "RECOMBINATION"] else [])
        ++ ["TOUR_FILE"] := by
    by_cases h : 1 < population_size <;> simp [create_par_file, h]
  have hgen : (generate_par_file tsp_path runs move_type population_size max_trials
      tour_file).map Prod.fst
      = ["PROBLEM_FILE", "MOVE_TYPE", "PATCHING_C", "PATCHING_A", "RUNS", "MAX_TRIALS"]
        ++ (if 1 < population_size then ["POPULATION_SIZE", "RECOMBINATION"] else [])
        ++ ["TOUR_FILE"] := by
    by_cases h : 1 < population_size <;> simp [generate_par_file, h]
  refine ⟨hkeys, ?_, ?_, hgen⟩
  · rw [hkeys]
    by_cases h : 1 < population_size
    · rw [if_pos h]
      exact ⟨fun _ => h, fun _ => by decide⟩
    · rw [if_neg h]
      exact ⟨fun hmem => absurd hmem (by decide), fun hlt => absurd hlt h⟩
  · rw [hkeys]
    by_cases h : 1 < population_size
    · rw [if_pos h]; decide
    · rw [if_neg h]; decide

/-- Claim C8: the reported total distance equals the sum of unscaled
haversine distances (kernel `d`) between consecutive points in tour order
plus the closing edge from the last point back to the first; in particular
for two nodes the total is twice the single pairwise distance. -/
theorem claim8_total_distance :
    (∀ (d : ℤ → ℤ → ℚ) (order : List ℤ), order ≠ [] →
        calculate_distance d order = closed_loop_total d order) ∧
    (∀ d : ℤ → ℤ → ℚ, (∀ a b, d a b = d b a) →
        calculate_distance d [1, 2] = 2 * d 0 1) := by
  constructor
  · exact calculate_distance_closed_loop
  · intro d hsym
    have hv : calculate_distance d [1, 2] = d 0 1 + d 1 0 := by
      norm_num [calculate_distance, List.range_succ]
    rw [hv, hsym 1 0]
    ring

/-- Witness for `claim8_total_distance` at a concrete symmetric kernel. -/
theorem claim8_total_distance_witness :
    calculate_distance exampleDist [1, 2] = closed_loop_total exampleDist [1, 2] ∧
    calculate_distance exampleDist [1, 2] = 2 * exampleDist 0 1 :=
  ⟨claim8_total_distance.1 exampleDist [1, 2] (List.cons_ne_nil 1 [2]),
   claim8_total_distance.2 exampleDist (fun a b => by
      simp only [exampleDist]
      push_cast
      ring)⟩

/-- Claim C9, counterexample: the claim asserts that on headers
`["city", "Y-coordinate", "X-coordinate"]` detection selects `Y-coordinate`
as latitude and `X-coordinate` as longitude.  `detect_columns` tests each
keyword for exact (lower-cased) equality with a header — no substring
matching — so neither coordinate header matches any keyword. -/
theorem claim9_counterexample :
    detect_columns ["city", "Y-coordinate", "X-coordinate"]
      ≠ (some "city", some "Y-coordinate", some "X-coordinate") := by
  decide

/-- Claim C9 (amended): on headers `["city", "Y-coordinate", "X-coordinate"]`
detection selects `city` as identifier but detects no latitude and no
longitude column (both `None`). -/
theorem claim9_exact_match_only :
    detect_columns ["city", "Y-coordinate", "X-coordinate"] = (some "city", none, none) := by
  decide

/-- Claim C10: the visualize_tour haversine is exactly
`6371.0 / 6371.008` times the tsp_converter haversine (the two modules use
different Earth-radius constants), and consequently, for any tour whose map
total is non-zero, the total distance shown on the generated map differs
from the reconciled `totalDistanceKm` reported to the user. -/
theorem claim10_radius_mismatch :
    (∀ (ca : ℚ → ℚ → ℚ → ℚ → ℚ) (lat1 lon1 lat2 lon2 : ℚ),
        haversine_distance_viz ca lat1 lon1 lat2 lon2
          = (6371000 / 6371008) * haversine_distance_conv ca lat1 lon1 lat2 lon2) ∧
    (∀ (ca : ℚ → ℚ → ℚ → ℚ → ℚ) (pts : List (ℚ × ℚ)),
        0 < create_tour_map_total ca pts →
        create_tour_map_total ca pts ≠ reported_total ca pts) := by
  constructor
  · intro ca lat1 lon1 lat2 lon2
    rw [haversine_distance_viz, haversine_distance_conv]
    ring
  · intro ca pts hpos heq
    rw [create_tour_map_total_eq] at hpos heq
    rw [reported_total_eq] at heq
    have hSpos : 0 < ((closedEdges pts).map (fun e => ca e.1.1 e.1.2 e.2.1 e.2.2)).sum := by
      nlinarith
    nlinarith

/-- Witness for `claim10_radius_mismatch` at a concrete angle kernel and
point list. -/
theorem claim10_radius_mismatch_witness :
    haversine_distance_viz unitAngle 0 0 1 1
        = (6371000 / 6371008) * haversine_distance_conv unitAngle 0 0 1 1 ∧
    create_tour_map_total unitAngle [(0, 0), (1, 1)]
      ≠ reported_total unitAngle [(0, 0), (1, 1)] :=
  ⟨claim10_radius_mismatch.1 unitAngle 0 0 1 1,
   claim10_radius_mismatch.2 unitAngle [(0, 0), (1, 1)] (by
      rw [create_tour_map_total_eq]
      norm_num [closedEdges, unitAngle])⟩

end LKHVision
